import Mathlib

/-!
Verification development for the daily-deployment dashboard (`app.py`).

The embedding models the three logic layers of the script:
* the Validator `validate_data` over loosely-typed tabular data
  (columns of string/number cells, as in a dataframe);
* the snapshot store (latest file, upload-history log, archived
  previous-snapshot files) and the Comparator `compare_with_previous`,
  `show_new_golive_projects`, `record_upload_history` and the upload view;
* the Aggregator pieces of `create_pivot_tables`: per-witel Go-Live port
  sums, the RANK column (pandas `rank(ascending=False, method='min')`
  computed over all rows including the margins row, after which the
  Grand Total cell is cleared), and the completion-percentage column
  (float division, `fillna(0)`, times 100), with float special values
  (NaN and the infinities) modelled explicitly.

Machine-level remarks on fidelity: numeric cells are integers (the port
counts of the data are integral); pandas sorts group keys, while the
embedding keeps first-occurrence order -- every statement proved below is
insensitive to the order of grouped keys, since only the key-to-value map
is observed.
-/

namespace Racing

/-- A dataframe cell: either a string or a number. -/
inductive Cell where
  | str (s : String)
  | num (n : Int)
deriving DecidableEq, Repr

/-- A tabular dataset: association list from column name to cell column. -/
abbrev DataFrame := List (String × List Cell)

instance {ε α : Type} [DecidableEq ε] [DecidableEq α] :
    DecidableEq (Except ε α) :=
  fun a b =>
    match a, b with
    | .error e, .error f =>
      if h : e = f then .isTrue (by rw [h])
      else .isFalse (fun hh => h (Except.error.inj hh))
    | .error _, .ok _ => .isFalse (fun hh => Except.noConfusion hh)
    | .ok _, .error _ => .isFalse (fun hh => Except.noConfusion hh)
    | .ok a, .ok b =>
      if h : a = b then .isTrue (by rw [h])
      else .isFalse (fun hh => h (Except.ok.inj hh))

/-- `col in df.columns`. -/
def hasCol (df : DataFrame) (c : String) : Bool :=
  df.any (fun p => p.1 == c)

/-- `df[col]`: raises `KeyError` when the column is absent. -/
def getCol (df : DataFrame) (c : String) : Except String (List Cell) :=
  match df.find? (fun p => p.1 == c) with
  | some p => .ok p.2
  | none => .error ("KeyError: " ++ c)

/-- `df[col] = v`: replace the column in place (append when absent). -/
def setCol (df : DataFrame) (c : String) (v : List Cell) : DataFrame :=
  if hasCol df c then df.map (fun p => if p.1 == c then (c, v) else p)
  else df ++ [(c, v)]

/-- Decimal digits of a numeric string, most significant first. -/
def parseDigitsAux (acc : Nat) : List Char → Option Nat
  | [] => some acc
  | c :: cs =>
    if c.isDigit then parseDigitsAux (acc * 10 + (c.toNat - 48)) cs else none

/-- Integer parsing of a string (the port counts of the data are
integral, so `pd.to_numeric`'s parsing is modelled on integer
literals). -/
def parseIntStr (s : String) : Option Int :=
  match s.data with
  | [] => none
  | '-' :: cs =>
    if cs.isEmpty then none
    else (parseDigitsAux 0 cs).map (fun n => -(n : Int))
  | cs => (parseDigitsAux 0 cs).map (fun n => (n : Int))

/-- One cell under `pd.to_numeric(-, errors="raise")`: numbers pass
through, numeric strings parse, anything else raises `ValueError`. -/
def toNumericCell (x : Cell) : Except String Cell :=
  match x with
  | .num n => .ok (.num n)
  | .str s =>
    match parseIntStr s with
    | some n => .ok (.num n)
    | none => .error "ValueError"

/-- `pd.to_numeric(series, errors="raise")`: raises at the first
non-coercible entry. -/
def toNumericRaise : List Cell → Except String (List Cell)
  | [] => .ok []
  | x :: xs =>
    match toNumericCell x, toNumericRaise xs with
    | .error e, _ => .error e
    | .ok _, .error e => .error e
    | .ok y, .ok ys => .ok (y :: ys)

/-- `(series < 0).any()` on a numeric series. -/
def anyNeg (xs : List Cell) : Bool :=
  xs.any (fun x => match x with | .num n => n < 0 | .str _ => false)

/-- `series.duplicated().sum()`: the number of entries equal to some
earlier entry. -/
def dupCount (xs : List Cell) : Nat :=
  (xs.foldl
    (fun acc x =>
      (acc.1 ++ [x], if acc.1.contains x then acc.2 + 1 else acc.2))
    (([] : List Cell), 0)).2

/-- The required-column list of `validate_data` (six columns; the project
name column `Nama Proyek` is not among them). -/
def required_columns : List String :=
  ["Regional", "Witel", "Status Proyek", "Total Port", "Datel", "Ticket ID"]

/-- The status values `validate_data` accepts. -/
def valid_statuses : List Cell := [.str "On Going", .str "Go Live"]

/-- Render a status cell for the invalid-status message. -/
def cellText (x : Cell) : String :=
  match x with
  | .str s => s
  | .num n => toString n

/-- `[col for col in required_columns if col not in df.columns]`. -/
def missingCols (df : DataFrame) : List String :=
  required_columns.filter (fun c => !(hasCol df c))

/-- The error list after the missing-columns check. -/
def missingErrs (df : DataFrame) : List String :=
  if (missingCols df).isEmpty then []
  else ["Missing required columns: " ++ String.intercalate ", " (missingCols df)]

/-- The `try` block of `validate_data`: coerce `Total Port` in place
(`df["Total Port"] = pd.to_numeric(df["Total Port"], errors="raise")`)
and flag negatives; a `ValueError` from the coercion is caught, leaving
the dataframe unchanged and adding the numeric-values error. -/
def portCheck (df : DataFrame) (errs : List String) (tp : List Cell) :
    DataFrame × List String :=
  match toNumericRaise tp with
  | .ok nums =>
    let dfA := setCol df "Total Port" nums
    if anyNeg nums then (dfA, errs ++ ["Total Port contains negative values"])
    else (dfA, errs)
  | .error _ => (df, errs ++ ["Total Port must contain numeric values"])

/-- The duplicate-`Ticket ID` check. -/
def dupCheck (tid : List Cell) (errs : List String) : List String :=
  if dupCount tid != 0 then
    errs ++ ["Found " ++ toString (dupCount tid) ++ " duplicate Ticket IDs"]
  else errs

/-- The status-values check
(`df[~df["Status Proyek"].isin(valid_statuses)]`). -/
def statusCheck (stat : List Cell) (errs : List String) : List String :=
  if (stat.filter (fun x => !(valid_statuses.contains x))).isEmpty then errs
  else errs ++
    ["Invalid status values found: " ++
      String.intercalate " "
        (((stat.filter (fun x => !(valid_statuses.contains x))).dedup).map cellText)]

/-- `validate_data(df)`, translated statement by statement.  Returns
`(df, is_valid, errors)` on normal return -- the returned dataframe is the
argument after the in-place coercion of `Total Port` -- and `.error` when
a statement raises an exception that the function does not catch (the
`try` of the source catches only `ValueError`; the column accesses
`df["Total Port"]`, `df["Ticket ID"]` and `df["Status Proyek"]` raise
`KeyError` out of the function when the column is missing). -/
def validate_data (df : DataFrame) : Except String (DataFrame × Bool × List String) :=
  match getCol df "Total Port" with
  | .error e => .error e
  | .ok tp =>
    match getCol (portCheck df (missingErrs df) tp).1 "Ticket ID" with
    | .error e => .error e
    | .ok tid =>
      match getCol (portCheck df (missingErrs df) tp).1 "Status Proyek" with
      | .error e => .error e
      | .ok stat =>
        .ok ((portCheck df (missingErrs df) tp).1,
          (statusCheck stat (dupCheck tid (portCheck df (missingErrs df) tp).2)).isEmpty,
          statusCheck stat (dupCheck tid (portCheck df (missingErrs df) tp).2))

/-- A ticket record of the daily spreadsheet, with the columns the
Comparator and Aggregator read. -/
structure Row where
  regional : String
  witel : String
  datel : String
  namaProyek : String
  statusProyek : String
  totalPort : Int
  ticketID : String
deriving DecidableEq, Repr

/-- The on-disk snapshot store of the data folder: the current snapshot
file `latest.xlsx` (`none` = absent), the upload-history log
`upload_history.csv` as a list of `(timestamp, file_hash)` rows (`none` =
file absent), and the archived files `previous_{hash}.xlsx` keyed by
hash.  File contents are a type parameter `C`; `pd.read_excel` is a
parameter `load : C -> List Row` where rows are consumed. -/
structure StoreState (C : Type) where
  latest : Option C
  history : Option (List (String × String))
  prevFiles : List (String × C)
deriving DecidableEq, Repr

/-- `os.path.exists` plus read of a `previous_{hash}.xlsx` file. -/
def fileLookup {C : Type} (fs : List (String × C)) (k : String) : Option C :=
  (fs.find? (fun p => p.1 == k)).map (fun p => p.2)

/-- `shutil.copy(src, previous_{hash}.xlsx)`: overwrite, or create. -/
def fileUpdate {C : Type} (fs : List (String × C)) (k : String) (c : C) :
    List (String × C) :=
  if fs.any (fun p => p.1 == k) then
    fs.map (fun p => if p.1 == k then (k, c) else p)
  else fs ++ [(k, c)]

/-- `history_df.iloc[-2]["file_hash"]`. -/
def previousHashOf (hist : List (String × String)) (h : 2 ≤ hist.length) :
    String :=
  (hist.get ⟨hist.length - 2, by omega⟩).2

/-- `df[df["Status Proyek"] == "Go Live"]`. -/
def goliveRows (df : List Row) : List Row :=
  df.filter (fun r => r.statusProyek == "Go Live")

/-- The Go-Live port sum of one witel:
`df[df["Status Proyek"]=="Go Live"].groupby("Witel")["Total Port"].sum()`
evaluated at `w` (0 when `w` has no Go-Live rows, matching both
`fill_value=0` of the pivot and `.get(w, 0)` of the Comparator). -/
def goliveSumR (df : List Row) (w : String) : Int :=
  ((df.filter (fun r => r.statusProyek == "Go Live" && r.witel == w)).map
    (fun r => r.totalPort)).sum

/-- The group keys of the Go-Live groupby (first-occurrence order; pandas
sorts them, which no statement below observes). -/
def goliveWitels (df : List Row) : List String :=
  ((goliveRows df).map (fun r => r.witel)).dedup

/-- The Go-Live groupby-sum series as an association list. -/
def golive_port_by_witel (df : List Row) : List (String × Int) :=
  (goliveWitels df).map (fun w => (w, goliveSumR df w))

/-- `series.get(key, 0)`. -/
def lookupD (l : List (String × Int)) (k : String) (d : Int) : Int :=
  match l.find? (fun p => p.1 == k) with
  | some p => p.2
  | none => d

/-- `compare_with_previous(current_df)`: the delta dictionary together
with the store state after the call (the call copies `latest.xlsx` over
the archived previous file when a comparison actually runs; when
`latest.xlsx` is absent that copy raises `FileNotFoundError`). -/
def compare_with_previous {C : Type} (load : C → List Row)
    (st : StoreState C) (current_df : List Row) :
    Except String (List (String × Int) × StoreState C) :=
  match st.history with
  | none => .ok ([], st)
  | some hist =>
    if h2 : 2 ≤ hist.length then
      match fileLookup st.prevFiles (previousHashOf hist h2) with
      | none => .ok ([], st)
      | some pc =>
        let previous_df := load pc
        let current_golive := golive_port_by_witel current_df
        let previous_golive := golive_port_by_witel previous_df
        let delta := current_golive.map
          (fun p => (p.1, p.2 - lookupD previous_golive p.1 0))
        match st.latest with
        | none => .error "FileNotFoundError"
        | some lc =>
          .ok (delta,
            { st with
              prevFiles := fileUpdate st.prevFiles (previousHashOf hist h2) lc })
    else .ok ([], st)

/-- `show_new_golive_projects(current_df)`: `none` models the early
returns that only emit a warning (no previous upload to compare with);
`some tbl` is the table of currently-Go-Live rows whose ticket id is not
Go Live in the previous snapshot. -/
def show_new_golive_projects {C : Type} (load : C → List Row)
    (st : StoreState C) (current_df : List Row) : Option (List Row) :=
  match st.history with
  | none => none
  | some hist =>
    if h2 : 2 ≤ hist.length then
      match fileLookup st.prevFiles (previousHashOf hist h2) with
      | none => none
      | some pc =>
        let previous_df := load pc
        let current_golive := goliveRows current_df
        let previous_golive := goliveRows previous_df
        some (current_golive.filter
          (fun r => !((previous_golive.map (fun q => q.ticketID)).contains r.ticketID)))
    else none

/-- The "no previous snapshot" conditions of the Comparator: no history
file, fewer than two recorded uploads, or the archived previous file
absent. -/
def noPreviousSnapshot {C : Type} (st : StoreState C) : Prop :=
  st.history = none ∨
    (∃ hist, st.history = some hist ∧ hist.length < 2) ∨
    (∃ hist, ∃ h2 : 2 ≤ hist.length, st.history = some hist ∧
      fileLookup st.prevFiles (previousHashOf hist h2) = none)

/-- `get_last_upload_info()`: timestamp and hash of the last history row. -/
def get_last_upload_info {C : Type} (st : StoreState C) :
    Option String × Option String :=
  match st.history with
  | none => (none, none)
  | some hist =>
    match hist.getLast? with
    | some e => (some e.1, some e.2)
    | none => (none, none)

/-- `record_upload_history()`: hash the latest file ("" when absent);
when the history log is non-empty, copy `latest.xlsx` over the archived
file keyed by the last recorded hash (skipped when `latest.xlsx` is
absent); append a `(now, file_hash)` row and write the log back. -/
def record_upload_history {C : Type} (md5 : C → String) (now : String)
    (st : StoreState C) : StoreState C :=
  let file_hash := match st.latest with | some c => md5 c | none => ""
  let hist0 := st.history.getD []
  let st1 :=
    match hist0.getLast? with
    | some e =>
      match st.latest with
      | some c => { st with prevFiles := fileUpdate st.prevFiles e.2 c }
      | none => st
    | none => st
  { st1 with history := some (hist0 ++ [(now, file_hash)]) }

/-- The non-duplicate path of the upload view: parse, validate, and on
success save the content as `latest.xlsx` and record history.  A
validation failure -- or an exception out of `validate_data`, which the
surrounding `try` catches -- leaves the store untouched, since nothing
is persisted before that point. -/
def upload_proceed {C : Type} (md5 : C → String) (loadCells : C → DataFrame)
    (now : String) (st : StoreState C) (uploaded : C) : StoreState C :=
  match validate_data (loadCells uploaded) with
  | .error _ => st
  | .ok (_, is_valid, _) =>
    if is_valid then
      record_upload_history md5 now { st with latest := some uploaded }
    else st

/-- The upload view's effect on the store (the `if uploaded_file:`
body): hash the content; when the last recorded hash is truthy and
equal to it, do nothing (`if last_hash and current_hash == last_hash`);
otherwise proceed with validation and persistence. -/
def upload_view {C : Type} (md5 : C → String) (loadCells : C → DataFrame)
    (now : String) (st : StoreState C) (uploaded : C) : StoreState C :=
  match (get_last_upload_info st).2 with
  | some h =>
    if h != "" && md5 uploaded == h then st
    else upload_proceed md5 loadCells now st uploaded
  | none => upload_proceed md5 loadCells now st uploaded

/-- The total Go-Live port sum over the whole dataframe: the value of
the margins row ("Grand Total") in the `Total Port_Go Live` column. -/
def totalGoliveSum (df : List Row) : Int :=
  ((goliveRows df).map (fun r => r.totalPort)).sum

/-- The row total of a witel: the `Total Port_Grand Total` column
(margins across statuses) at witel `w`. -/
def totalPortSumR (df : List Row) (w : String) : Int :=
  ((df.filter (fun r => r.witel == w)).map (fun r => r.totalPort)).sum

/-- The witel pivot's index (first-occurrence order; pandas sorts it,
which no statement below observes). -/
def witelIndex (df : List Row) : List String :=
  (df.map (fun r => r.witel)).dedup

/-- The `Total Port_Go Live` column of the witel pivot, margins row
included: one `(label, sum)` pair per witel, then the Grand Total row. -/
def golive_sums (df : List Row) : List (String × Int) :=
  (witelIndex df).map (fun w => (w, goliveSumR df w)) ++
    [("Grand Total", totalGoliveSum df)]

/-- pandas `rank(ascending=False, method="min")` of value `v` within the
column `vals`: one plus the number of strictly greater entries. -/
def rank_min_desc (vals : List Int) (v : Int) : Nat :=
  1 + (vals.filter (fun x => v < x)).length

/-- The RANK column of the witel pivot: ranks computed over every row of
the pivot -- the Grand Total margins row included -- by descending
`Total Port_Go Live` with the min method, after which
`witel_pivot.loc["Grand Total", "RANK"] = None` clears the Grand Total
cell. -/
def witel_rank (df : List Row) : List (String × Option Nat) :=
  let s := golive_sums df
  let vals := s.map (fun p => p.2)
  s.map (fun p =>
    if p.1 == "Grand Total" then (p.1, none)
    else (p.1, some (rank_min_desc vals p.2)))

/-- A pandas float cell: a finite value, NaN, or a signed infinity. -/
inductive PFloat where
  | val (q : ℚ)
  | nan
  | inf
  | ninf
deriving DecidableEq, Repr

/-- Float division as pandas performs it on a column: `0/0` is NaN,
`x/0` is a signed infinity, otherwise the exact quotient. -/
def pdiv (a b : ℚ) : PFloat :=
  if b = 0 then (if a = 0 then .nan else if 0 < a then .inf else .ninf)
  else .val (a / b)

/-- `.fillna(0)`: NaN becomes 0; infinities pass through. -/
def pfillna0 (x : PFloat) : PFloat :=
  match x with
  | .nan => .val 0
  | y => y

/-- `* 100` on a float cell. -/
def pmul100 (x : PFloat) : PFloat :=
  match x with
  | .val q => .val (q * 100)
  | y => y

/-- The `%` column of the witel pivot at witel `w`:
`(witel_pivot["Total Port_Go Live"] / witel_pivot["Total Port_Grand Total"]).fillna(0) * 100`. -/
def completion_pct (df : List Row) (w : String) : PFloat :=
  pmul100 (pfillna0 (pdiv (goliveSumR df w : ℚ) (totalPortSumR df w : ℚ)))

/-! ### Concrete inputs used by the theorems below -/

/-- A dataset with every column except `Total Port`. -/
def dfNoPort : DataFrame :=
  [("Regional", [Cell.str "R"]), ("Witel", [Cell.str "W"]),
   ("Status Proyek", [Cell.str "Go Live"]), ("Datel", [Cell.str "D"]),
   ("Ticket ID", [Cell.str "T1"]), ("Nama Proyek", [Cell.str "P"])]

/-- A well-formed dataset that lacks the project-name column
`Nama Proyek`. -/
def dfNoName : DataFrame :=
  [("Regional", [Cell.str "R"]), ("Witel", [Cell.str "W"]),
   ("Status Proyek", [Cell.str "Go Live"]), ("Total Port", [Cell.num 10]),
   ("Datel", [Cell.str "D"]), ("Ticket ID", [Cell.str "T1"])]

/-- A well-formed dataset that lacks the `Regional` column. -/
def dfNoRegional : DataFrame :=
  [("Witel", [Cell.str "W"]),
   ("Status Proyek", [Cell.str "Go Live"]), ("Total Port", [Cell.num 10]),
   ("Datel", [Cell.str "D"]), ("Ticket ID", [Cell.str "T1"])]

/-- A dataset whose `Total Port` column holds the numeric string "5". -/
def dfStrPort : DataFrame :=
  [("Regional", [Cell.str "R"]), ("Witel", [Cell.str "W"]),
   ("Status Proyek", [Cell.str "Go Live"]), ("Total Port", [Cell.str "5"]),
   ("Datel", [Cell.str "D"]), ("Ticket ID", [Cell.str "T1"]),
   ("Nama Proyek", [Cell.str "P"])]

/-- `dfStrPort` after the in-place coercion of `Total Port`. -/
def dfStrPortAfter : DataFrame :=
  [("Regional", [Cell.str "R"]), ("Witel", [Cell.str "W"]),
   ("Status Proyek", [Cell.str "Go Live"]), ("Total Port", [Cell.num 5]),
   ("Datel", [Cell.str "D"]), ("Ticket ID", [Cell.str "T1"]),
   ("Nama Proyek", [Cell.str "P"])]

/-- A dataset with a negative port count. -/
def dfNegPort : DataFrame :=
  [("Regional", [Cell.str "R"]), ("Witel", [Cell.str "W"]),
   ("Status Proyek", [Cell.str "Go Live"]), ("Total Port", [Cell.num (-5)]),
   ("Datel", [Cell.str "D"]), ("Ticket ID", [Cell.str "T1"]),
   ("Nama Proyek", [Cell.str "P"])]

/-- Snapshot A of the spec's comparison scenario:
T1 On Going/100/RegionX, T2 Go Live/50/RegionX. -/
def prevRows : List Row :=
  [⟨"R", "RegionX", "D1", "P1", "On Going", 100, "T1"⟩,
   ⟨"R", "RegionX", "D1", "P2", "Go Live", 50, "T2"⟩]

/-- Snapshot B of the spec's comparison scenario:
T1 Go Live/100/RegionX, T3 On Going/30/RegionY. -/
def curRows : List Row :=
  [⟨"R", "RegionX", "D1", "P1", "Go Live", 100, "T1"⟩,
   ⟨"R", "RegionY", "D2", "P3", "On Going", 30, "T3"⟩]

/-- A store holding the scenario: snapshot B is latest, snapshot A is
archived under the second-to-last recorded hash. -/
def stScn : StoreState (List Row) :=
  ⟨some curRows, some [("d1", "hprev"), ("d2", "hcur")], [("hprev", prevRows)]⟩

/-- `stScn` after `compare_with_previous` ran: the archived previous
file has been overwritten with the latest snapshot. -/
def stScnAfter : StoreState (List Row) :=
  ⟨some curRows, some [("d1", "hprev"), ("d2", "hcur")], [("hprev", curRows)]⟩

/-- Previous snapshot for the frame-effect scenario. -/
def prevRows9 : List Row :=
  [⟨"R", "WitelA", "D1", "P1", "Go Live", 20, "U1"⟩]

/-- Current snapshot for the frame-effect scenario. -/
def curRows9 : List Row :=
  [⟨"R", "WitelA", "D1", "P1", "Go Live", 35, "U1"⟩]

/-- Store for the frame-effect scenario. -/
def stScn9 : StoreState (List Row) :=
  ⟨some curRows9, some [("e1", "k1"), ("e2", "k2")], [("k1", prevRows9)]⟩

/-- `stScn9` after the comparison overwrote the archive. -/
def stScn9After : StoreState (List Row) :=
  ⟨some curRows9, some [("e1", "k1"), ("e2", "k2")], [("k1", curRows9)]⟩

/-- One all-Go-Live ticket of a given witel and port count. -/
def rkRow (w : String) (p : Int) : Row :=
  ⟨"R", w, "D", "P", "Go Live", p, w⟩

/-- Three witels with Go-Live port sums 10, 10, 5: a tie at the top. -/
def dfRank : List Row := [rkRow "A" 10, rkRow "B" 10, rkRow "C" 5]

/-- Two witels with Go-Live port sums 7 and 3. -/
def dfRank2 : List Row := [rkRow "D" 7, rkRow "E" 3]

/-- A dataset for the completion-percentage theorem: witel W1 is 30
percent complete; witel W2 has total port sum 0. -/
def dfPct : List Row :=
  [⟨"R", "W1", "D", "P", "Go Live", 30, "T1"⟩,
   ⟨"R", "W1", "D", "P", "On Going", 70, "T2"⟩,
   ⟨"R", "W2", "D", "P", "On Going", 0, "T3"⟩]

/-- A concrete stand-in for the md5 hex digest on row-list contents. -/
def md5c : List Row → String :=
  fun c => if c = curRows then "hcur" else "hother"

/-- A store whose last recorded hash is the hash of `curRows`. -/
def stScn4 : StoreState (List Row) :=
  ⟨some curRows, some [("d1", "hcur")], []⟩

/-! ### General list lemmas -/

theorem append_singleton_ne_nil {α : Type} (l : List α) (x : α) :
    l ++ [x] ≠ [] := by
  cases l <;> simp

theorem ne_nil_append {α : Type} {l : List α} (m : List α) (h : l ≠ []) :
    l ++ m ≠ [] := by
  cases l with
  | nil => exact absurd rfl h
  | cons a l => simp

theorem length_filter_mono {α : Type} (l : List α) (p q : α → Bool)
    (himp : ∀ a, p a = true → q a = true) :
    (l.filter p).length ≤ (l.filter q).length := by
  induction l with
  | nil => simp
  | cons a l ih =>
    by_cases hp : p a = true
    · rw [List.filter_cons_of_pos hp, List.filter_cons_of_pos (himp a hp)]
      simpa using ih
    · rw [List.filter_cons_of_neg hp]
      by_cases hq : q a = true
      · rw [List.filter_cons_of_pos hq]
        exact le_trans ih (by simp)
      · rw [List.filter_cons_of_neg hq]
        exact ih

theorem find?_map_key (l : List String) (f : String → Int) (w : String) :
    ((l.map (fun u => (u, f u))).find? (fun p => p.1 == w)) =
      if l.contains w then some (w, f w) else none := by
  induction l with
  | nil => rfl
  | cons a l ih =>
    by_cases ha : a = w
    · subst ha
      simp [List.find?, List.contains_cons]
    · have hba : (a == w) = false := beq_eq_false_iff_ne.mpr ha
      have hba' : (w == a) = false := beq_eq_false_iff_ne.mpr (Ne.symm ha)
      simp only [List.map_cons, List.find?, hba, List.contains_cons, hba',
        Bool.false_or]
      exact ih

/-! ### Validator lemmas -/

theorem portCheck_errs (df : DataFrame) (errs : List String) (tp : List Cell) :
    ∃ rest, (portCheck df errs tp).2 = errs ++ rest := by
  unfold portCheck
  cases toNumericRaise tp with
  | ok nums =>
    by_cases h : anyNeg nums = true
    · simp [h]
    · simp [h]
  | error e => exact ⟨_, rfl⟩

theorem dupCheck_errs (tid : List Cell) (errs : List String) :
    ∃ rest, dupCheck tid errs = errs ++ rest := by
  unfold dupCheck
  by_cases h : dupCount tid != 0
  · simp [h]
  · simp [h]

theorem statusCheck_errs (stat : List Cell) (errs : List String) :
    ∃ rest, statusCheck stat errs = errs ++ rest := by
  unfold statusCheck
  by_cases h : (stat.filter (fun x => !(valid_statuses.contains x))).isEmpty = true
  · exact ⟨[], by rw [if_pos h, List.append_nil]⟩
  · exact ⟨_, by rw [if_neg h]⟩

theorem portCheck_fst (df : DataFrame) (errs : List String) (tp : List Cell) :
    (portCheck df errs tp).1 = df ∨
      ∃ nums, (portCheck df errs tp).1 = setCol df "Total Port" nums := by
  unfold portCheck
  cases toNumericRaise tp with
  | ok nums =>
    by_cases h : anyNeg nums = true
    · exact Or.inr ⟨nums, by simp [h]⟩
    · exact Or.inr ⟨nums, by simp [h]⟩
  | error e => exact Or.inl rfl

theorem toNumericRaise_mem (tp : List Cell) (nums : List Cell)
    (h : toNumericRaise tp = .ok nums) (n : Int) (hmem : Cell.num n ∈ tp) :
    Cell.num n ∈ nums := by
  induction tp generalizing nums with
  | nil => cases hmem
  | cons x tp ih =>
    unfold toNumericRaise at h
    cases hx : toNumericCell x with
    | error e => rw [hx] at h; cases h
    | ok y =>
      rw [hx] at h
      cases ht : toNumericRaise tp with
      | error e => rw [ht] at h; cases h
      | ok ys =>
        rw [ht] at h
        cases h
        rcases List.mem_cons.mp hmem with hx' | htl
        · rw [← hx'] at hx
          rw [show y = Cell.num n from (Except.ok.inj hx).symm]
          exact List.mem_cons_self _ _
        · exact List.mem_cons_of_mem _ (ih ys ht htl)

theorem anyNeg_of_mem (nums : List Cell) (n : Int) (hmem : Cell.num n ∈ nums)
    (hn : n < 0) : anyNeg nums = true := by
  unfold anyNeg
  exact List.any_eq_true.mpr ⟨Cell.num n, hmem, by simpa using hn⟩

theorem portCheck_neg_errs (df : DataFrame) (errs : List String)
    (tp : List Cell) (n : Int) (hmem : Cell.num n ∈ tp) (hn : n < 0) :
    ∃ rest, rest ≠ [] ∧ (portCheck df errs tp).2 = errs ++ rest := by
  unfold portCheck
  cases htn : toNumericRaise tp with
  | error e => exact ⟨_, by simp, rfl⟩
  | ok nums =>
    have hin : Cell.num n ∈ nums := toNumericRaise_mem tp nums htn n hmem
    have : anyNeg nums = true := anyNeg_of_mem nums n hin hn
    simp [this]

theorem find?_map_replace (df : DataFrame) (k : String) (v : List Cell)
    (c : String) (hck : c ≠ k) :
    (df.map (fun p => if p.1 == k then (k, v) else p)).find?
        (fun p => p.1 == c) =
      df.find? (fun p => p.1 == c) := by
  induction df with
  | nil => rfl
  | cons p df ih =>
    rw [List.map_cons]
    by_cases hp : p.1 = k
    · have h1 : (p.1 == k) = true := beq_iff_eq.mpr hp
      have h2 : ¬((k, v).1 == c) = true := by
        simp only []
        exact fun hkc => hck (beq_iff_eq.mp hkc).symm
      have h3 : ¬(p.1 == c) = true := by
        rw [hp]
        exact fun hkc => hck (beq_iff_eq.mp hkc).symm
      rw [if_pos h1,
        @List.find?_cons_of_neg _ (fun q => q.1 == c) (k, v) _ h2,
        @List.find?_cons_of_neg _ (fun q => q.1 == c) p _ h3]
      exact ih
    · have h1 : (p.1 == k) = false := beq_eq_false_iff_ne.mpr hp
      rw [if_neg (by simp [h1])]
      by_cases hc : (p.1 == c) = true
      · rw [@List.find?_cons_of_pos _ (fun q => q.1 == c) p _ hc,
          @List.find?_cons_of_pos _ (fun q => q.1 == c) p _ hc]
      · rw [@List.find?_cons_of_neg _ (fun q => q.1 == c) p _ hc,
          @List.find?_cons_of_neg _ (fun q => q.1 == c) p _ hc]
        exact ih

theorem getCol_setCol_ne (df : DataFrame) (k : String) (v : List Cell)
    (c : String) (hck : c ≠ k) :
    getCol (setCol df k v) c = getCol df c := by
  unfold setCol getCol
  by_cases hh : hasCol df k
  · rw [if_pos hh, find?_map_replace df k v c hck]
  · rw [if_neg hh, List.find?_append]
    have hnone : (([(k, v)] : DataFrame).find? (fun p => p.1 == c)) = none := by
      have : (k == c) = false := beq_eq_false_iff_ne.mpr (fun h => hck h.symm)
      simp [List.find?, this]
    rw [hnone]
    cases df.find? (fun p => p.1 == c) <;> rfl

theorem validate_data_ok (df df' : DataFrame) (v : Bool) (errs : List String)
    (h : validate_data df = .ok (df', v, errs)) :
    ∃ tp, getCol df "Total Port" = .ok tp ∧
      df' = (portCheck df (missingErrs df) tp).1 ∧
      (∃ rest, errs = (portCheck df (missingErrs df) tp).2 ++ rest) ∧
      v = errs.isEmpty := by
  unfold validate_data at h
  split at h
  next e heq => cases h
  next tp heq =>
    split at h
    next e heq2 => cases h
    next tid heq2 =>
      split at h
      next e heq3 => cases h
      next stat heq3 =>
        have h' := Except.ok.inj h
        obtain ⟨h1, h23⟩ := Prod.mk.injEq _ _ _ _ |>.mp h'
        obtain ⟨h2, h3⟩ := Prod.mk.injEq _ _ _ _ |>.mp h23
        refine ⟨tp, heq, h1.symm, ?_, ?_⟩
        · obtain ⟨r1, hr1⟩ := dupCheck_errs tid (portCheck df (missingErrs df) tp).2
          obtain ⟨r2, hr2⟩ :=
            statusCheck_errs stat (dupCheck tid (portCheck df (missingErrs df) tp).2)
          exact ⟨r1 ++ r2, by rw [← h3, hr2, hr1, List.append_assoc]⟩
        · rw [← h2, ← h3]

/-! ### Comparator and aggregator lemmas -/

theorem goliveSumR_eq_zero_of_not_mem (df : List Row) (w : String)
    (hw : ¬(goliveWitels df).contains w = true) : goliveSumR df w = 0 := by
  unfold goliveSumR
  have hnil : df.filter (fun r => r.statusProyek == "Go Live" && r.witel == w) = [] := by
    rw [List.filter_eq_nil_iff]
    intro r hr hpred
    obtain ⟨hst, hwl⟩ := Bool.and_eq_true _ _ |>.mp hpred
    apply hw
    have hmem : w ∈ (goliveRows df).map (fun r => r.witel) := by
      refine List.mem_map.mpr ⟨r, ?_, beq_iff_eq.mp hwl⟩
      unfold goliveRows
      exact List.mem_filter.mpr ⟨hr, hst⟩
    unfold goliveWitels
    exact List.elem_iff.mpr (List.mem_dedup.mpr hmem)
  rw [hnil]
  rfl

theorem lookupD_golive (dfp : List Row) (w : String) :
    lookupD (golive_port_by_witel dfp) w 0 = goliveSumR dfp w := by
  unfold lookupD golive_port_by_witel
  rw [find?_map_key]
  by_cases hw : (goliveWitels dfp).contains w = true
  · rw [if_pos hw]
  · rw [if_neg hw]
    exact (goliveSumR_eq_zero_of_not_mem dfp w hw).symm

theorem rank_min_desc_mono (vals : List Int) (v1 v2 : Int) (h : v2 ≤ v1) :
    rank_min_desc vals v1 ≤ rank_min_desc vals v2 := by
  unfold rank_min_desc
  have hle := length_filter_mono vals (fun x => v1 < x) (fun x => v2 < x)
    (fun a ha => by
      simp only [decide_eq_true_eq] at ha ⊢
      omega)
  omega

theorem witel_rank_mem (df : List Row) (w : String) (r : Nat)
    (h : (w, some r) ∈ witel_rank df) :
    r = rank_min_desc ((golive_sums df).map (fun p => p.2)) (goliveSumR df w) := by
  unfold witel_rank at h
  obtain ⟨p, hp, hpe⟩ := List.mem_map.mp h
  by_cases hg : (p.1 == "Grand Total") = true
  · rw [if_pos hg] at hpe
    obtain ⟨-, hcon⟩ := Prod.mk.injEq _ _ _ _ |>.mp hpe
    cases hcon
  · rw [if_neg hg] at hpe
    obtain ⟨h1, h2⟩ := Prod.mk.injEq _ _ _ _ |>.mp hpe
    rcases List.mem_append.mp hp with hpre | hgt
    · obtain ⟨u, -, hue⟩ := List.mem_map.mp hpre
      have hp2 : p.2 = goliveSumR df p.1 := by
        rw [← hue]
      rw [← (Option.some.inj h2), hp2, h1]
    · have : p = ("Grand Total", totalGoliveSum df) := by
        simpa using hgt
      rw [this] at hg
      simp at hg

theorem grand_total_rank_none (df : List Row) :
    ("Grand Total", (none : Option Nat)) ∈ witel_rank df := by
  unfold witel_rank
  refine List.mem_map.mpr ⟨("Grand Total", totalGoliveSum df), ?_, ?_⟩
  · unfold golive_sums
    exact List.mem_append.mpr (Or.inr (by simp))
  · simp

theorem sum_map_filter_nonneg (l : List Row) (p : Row → Bool)
    (h : ∀ r ∈ l, 0 ≤ r.totalPort) :
    0 ≤ ((l.filter p).map (fun r => r.totalPort)).sum := by
  apply List.sum_nonneg
  intro x hx
  obtain ⟨r, hr, hrx⟩ := List.mem_map.mp hx
  exact hrx ▸ h r (List.mem_filter.mp hr).1

theorem sum_map_filter_mono (l : List Row) (p q : Row → Bool)
    (himp : ∀ r, p r = true → q r = true)
    (h : ∀ r ∈ l, 0 ≤ r.totalPort) :
    ((l.filter p).map (fun r => r.totalPort)).sum ≤
      ((l.filter q).map (fun r => r.totalPort)).sum := by
  induction l with
  | nil => simp
  | cons a l ih =>
    have hnn : 0 ≤ a.totalPort := h a (List.mem_cons_self _ _)
    have ih' := ih (fun r hr => h r (List.mem_cons_of_mem _ hr))
    by_cases hp : p a = true
    · rw [List.filter_cons_of_pos hp, List.filter_cons_of_pos (himp a hp)]
      simp only [List.map_cons, List.sum_cons]
      omega
    · rw [List.filter_cons_of_neg hp]
      by_cases hq : q a = true
      · rw [List.filter_cons_of_pos hq]
        simp only [List.map_cons, List.sum_cons]
        omega
      · rw [List.filter_cons_of_neg hq]
        exact ih'

theorem append_ne_nil_right {α : Type} (l : List α) {m : List α} (h : m ≠ []) :
    l ++ m ≠ [] := by
  intro hc
  obtain ⟨-, h2⟩ := List.append_eq_nil.mp hc
  exact h h2

theorem isEmpty_false_of_ne_nil {α : Type} {l : List α} (h : l ≠ []) :
    l.isEmpty = false := by
  cases l with
  | nil => exact absurd rfl h
  | cons a l => rfl

/-! ### Claim theorems -/

/-- C5 (code_bug evidence): on a dataset that has every column except
`Total Port`, `validate_data` raises a `KeyError` out of the function
instead of returning a fail result with the "Missing required columns"
reason it has already built -- the unguarded `df["Total Port"]` access
sits outside the `except ValueError` handler. -/
theorem validate_data_missing_port_raises :
    validate_data dfNoPort = .error ("KeyError: Total Port") := rfl

/-- C6 (counterexample): a dataset lacking the project-name column
`Nama Proyek` passes validation, because the validator's required-column
list has six entries and does not include the project name. -/
theorem validate_data_passes_without_project_name :
    hasCol dfNoName "Nama Proyek" = false ∧
      validate_data dfNoName = .ok (dfNoName, true, []) :=
  ⟨rfl, rfl⟩

/-- C6 (amended): the Validator checks the presence of the six fields
{Regional, Witel, Status Proyek, Total Port, Datel, Ticket ID} -- project
name is not among them -- and whenever `validate_data` returns at all on
a dataset missing one of the six, the verdict is fail with a non-empty
reason list (when `Total Port`, `Ticket ID` or `Status Proyek` itself is
missing the function instead raises a `KeyError`). -/
theorem validate_data_missing_required_fails (df df' : DataFrame) (v : Bool)
    (errs : List String) (c : String) (hc : c ∈ required_columns)
    (hmiss : hasCol df c = false) (h : validate_data df = .ok (df', v, errs)) :
    v = false ∧ errs ≠ [] := by
  obtain ⟨tp, -, -, ⟨rest, herrs⟩, hv⟩ := validate_data_ok df df' v errs h
  have hm : missingErrs df ≠ [] := by
    unfold missingErrs
    have hcm : c ∈ missingCols df := by
      unfold missingCols
      exact List.mem_filter.mpr ⟨hc, by simp [hmiss]⟩
    have hne : ¬(missingCols df).isEmpty = true := by
      cases hmc : missingCols df with
      | nil => rw [hmc] at hcm; cases hcm
      | cons a l => simp
    rw [if_neg hne]
    simp
  obtain ⟨r1, hr1⟩ := portCheck_errs df (missingErrs df) tp
  have herrne : errs ≠ [] := by
    rw [herrs, hr1, List.append_assoc]
    exact ne_nil_append _ hm
  refine ⟨?_, herrne⟩
  rw [hv]
  exact isEmpty_false_of_ne_nil herrne

/-- Witness for the amended C6 theorem at a dataset missing `Regional`. -/
theorem validate_data_missing_required_fails_w :
    false = false ∧
      ["Missing required columns: Regional"] ≠ ([] : List String) :=
  validate_data_missing_required_fails dfNoRegional dfNoRegional false
    ["Missing required columns: Regional"] "Regional" (by decide) rfl rfl

/-- C7 (counterexample): validation is not a pure check -- on a dataset
whose `Total Port` column holds the numeric string "5", `validate_data`
returns the dataset with that column replaced in place by the coerced
number 5, a dataset different from the input. -/
theorem validate_data_mutates_port_column :
    validate_data dfStrPort = .ok (dfStrPortAfter, true, []) ∧
      dfStrPortAfter ≠ dfStrPort :=
  ⟨by decide, by decide⟩

/-- C7 (amended): validation leaves every column other than the
port-count column `Total Port` unchanged; only `Total Port` may be
replaced (by its numeric coercion). -/
theorem validate_data_frame_other_columns (df df' : DataFrame) (v : Bool)
    (errs : List String) (c : String) (hc : c ≠ "Total Port")
    (h : validate_data df = .ok (df', v, errs)) :
    getCol df' c = getCol df c := by
  obtain ⟨tp, -, hdf', -, -⟩ := validate_data_ok df df' v errs h
  rcases portCheck_fst df (missingErrs df) tp with heq | ⟨nums, heq⟩
  · rw [hdf', heq]
  · rw [hdf', heq, getCol_setCol_ne df "Total Port" nums c hc]

/-- Witness for the amended C7 theorem: the `Witel` column survives the
validation of `dfStrPort` unchanged. -/
theorem validate_data_frame_other_columns_w :
    getCol dfStrPortAfter "Witel" = getCol dfStrPort "Witel" :=
  validate_data_frame_other_columns dfStrPort dfStrPortAfter true []
    "Witel" (by decide) (by decide)

/-- C10: any dataset whose `Total Port` column contains a negative value
fails validation with a non-empty reason list (whenever `validate_data`
returns at all). -/
theorem validate_data_rejects_negative_port (df df' : DataFrame) (v : Bool)
    (errs : List String) (tp : List Cell) (n : Int)
    (hcol : getCol df "Total Port" = .ok tp) (hmem : Cell.num n ∈ tp)
    (hn : n < 0) (h : validate_data df = .ok (df', v, errs)) :
    v = false ∧ errs ≠ [] := by
  obtain ⟨tp2, hcol2, -, ⟨rest, herrs⟩, hv⟩ := validate_data_ok df df' v errs h
  rw [hcol] at hcol2
  cases Except.ok.inj hcol2
  obtain ⟨r1, hr1ne, hr1⟩ := portCheck_neg_errs df (missingErrs df) tp n hmem hn
  have herrne : errs ≠ [] := by
    rw [herrs, hr1, List.append_assoc]
    exact append_ne_nil_right _ (ne_nil_append _ hr1ne)
  refine ⟨?_, herrne⟩
  rw [hv]
  exact isEmpty_false_of_ne_nil herrne

/-- Witness for C10 at a dataset with port count -5. -/
theorem validate_data_rejects_negative_port_w :
    false = false ∧
      ["Total Port contains negative values"] ≠ ([] : List String) :=
  validate_data_rejects_negative_port dfNegPort dfNegPort false
    ["Total Port contains negative values"] [Cell.num (-5)] (-5)
    rfl (by decide) (by decide) rfl

theorem golive_delta_map (cur dfp : List Row) :
    (golive_port_by_witel cur).map
        (fun p => (p.1, p.2 - lookupD (golive_port_by_witel dfp) p.1 0)) =
      (goliveWitels cur).map
        (fun u => (u, goliveSumR cur u - lookupD (golive_port_by_witel dfp) u 0)) := by
  unfold golive_port_by_witel
  rw [List.map_map]
  rfl

/-- C8: when there is no previous snapshot -- no history file, fewer
than two recorded uploads, or the archived previous file absent -- the
Comparator returns the empty delta map without touching the store and
without an exception, and `show_new_golive_projects` reports nothing. -/
theorem compare_with_previous_no_previous {C : Type} (load : C → List Row)
    (st : StoreState C) (cur : List Row) (h : noPreviousSnapshot st) :
    compare_with_previous load st cur = .ok ([], st) ∧
      show_new_golive_projects load st cur = none := by
  rcases h with hn | ⟨hist, hh, hlt⟩ | ⟨hist, h2, hh, hnone⟩
  · constructor
    · unfold compare_with_previous; rw [hn]
    · unfold show_new_golive_projects; rw [hn]
  · have hn2 : ¬2 ≤ hist.length := by omega
    constructor
    · unfold compare_with_previous
      simp only [hh]
      rw [dif_neg hn2]
    · unfold show_new_golive_projects
      simp only [hh]
      rw [dif_neg hn2]
  · constructor
    · unfold compare_with_previous
      simp only [hh]
      rw [dif_pos h2, hnone]
    · unfold show_new_golive_projects
      simp only [hh]
      rw [dif_pos h2, hnone]

/-- Witness for C8 on an entirely empty store. -/
theorem compare_with_previous_no_previous_w :
    compare_with_previous (fun _ : Unit => ([] : List Row))
        ⟨none, none, []⟩ [] = .ok ([], ⟨none, none, []⟩) ∧
      show_new_golive_projects (fun _ : Unit => ([] : List Row))
        ⟨none, none, []⟩ [] = none :=
  compare_with_previous_no_previous (fun _ : Unit => ([] : List Row))
    ⟨none, none, []⟩ [] (Or.inl rfl)

/-- C1 (counterexample): on the spec's own scenario -- previous snapshot
{T1 On Going/100/RegionX, T2 Go Live/50/RegionX}, current snapshot
{T1 Go Live/100/RegionX, T3 On Going/30/RegionY} -- the Comparator's
delta for RegionX is +50 (current Go-Live sum 100 minus previous Go-Live
sum 50), not the +100 that summing the transitioned ticket T1 would
give: the code diffs aggregate Go-Live sums and is also decreased by the
removed Go-Live ticket T2. -/
theorem compare_scenario_delta_is_50 :
    compare_with_previous id stScn curRows = .ok ([("RegionX", 50)], stScnAfter) ∧
      lookupD [("RegionX", 50)] "RegionX" 0 ≠ 100 :=
  ⟨rfl, by decide⟩

/-- C1 (amended): whenever a comparison actually runs, the delta map has
a key exactly for each sub-region with a Go-Live row in the current
snapshot, and its value is the current Go-Live port sum minus the
previous Go-Live port sum of that sub-region (which equals the sum over
transitioned tickets only when no Go-Live port mass was removed or
changed); on the spec's scenario RegionX maps to +50 and RegionY is
absent. -/
theorem compare_delta_is_golive_sum_diff {C : Type} (load : C → List Row)
    (st : StoreState C) (cur : List Row) (hist : List (String × String))
    (pc : C) (delta : List (String × Int)) (st' : StoreState C)
    (h2 : 2 ≤ hist.length) (hh : st.history = some hist)
    (hp : fileLookup st.prevFiles (previousHashOf hist h2) = some pc)
    (hres : compare_with_previous load st cur = .ok (delta, st'))
    (w : String) :
    (delta.find? (fun p => p.1 == w)).map (fun p => p.2) =
      if (goliveWitels cur).contains w then
        some (goliveSumR cur w - goliveSumR (load pc) w)
      else none := by
  unfold compare_with_previous at hres
  simp only [hh] at hres
  rw [dif_pos h2] at hres
  simp only [hp] at hres
  cases hl : st.latest with
  | none =>
    simp only [hl] at hres
    exact Except.noConfusion hres
  | some lc =>
    simp only [hl] at hres
    obtain ⟨hd, -⟩ := Prod.mk.injEq _ _ _ _ |>.mp (Except.ok.inj hres)
    rw [← hd, golive_delta_map cur (load pc), find?_map_key]
    by_cases hw : (goliveWitels cur).contains w = true
    · rw [if_pos hw, if_pos hw]
      simp only [Option.map_some']
      rw [lookupD_golive]
    · rw [if_neg hw, if_neg hw]
      simp only [Option.map_none']

/-- Witness for the amended C1 theorem at the spec's scenario and
sub-region RegionX. -/
theorem compare_delta_is_golive_sum_diff_w :
    (([("RegionX", (50 : Int))]).find? (fun p => p.1 == "RegionX")).map
        (fun p => p.2) =
      if (goliveWitels curRows).contains "RegionX" then
        some (goliveSumR curRows "RegionX" - goliveSumR (id prevRows) "RegionX")
      else none :=
  compare_delta_is_golive_sum_diff id stScn curRows
    [("d1", "hprev"), ("d2", "hcur")] prevRows [("RegionX", 50)] stScnAfter
    (by decide) rfl rfl rfl "RegionX"

/-- C9 (counterexample): computing a delta is not a pure derivation --
on a store whose archived previous snapshot has 20 Go-Live ports while
the latest has 35, the comparison succeeds and returns a store state in
which the archived previous-snapshot file has been overwritten with the
latest file (`shutil.copy(LATEST_FILE, previous_file)`). -/
theorem compare_overwrites_archive :
    compare_with_previous id stScn9 curRows9 =
        .ok ([("WitelA", 15)], stScn9After) ∧
      stScn9After ≠ stScn9 :=
  ⟨rfl, by decide⟩

/-- C9 (amended): a successful comparison never touches the latest
snapshot or the history log, and its only possible store effect is
overwriting one archived previous-snapshot file with the content of the
latest file (which happens exactly when a full comparison runs). -/
theorem compare_store_effect {C : Type} (load : C → List Row)
    (st : StoreState C) (cur : List Row) (delta : List (String × Int))
    (st' : StoreState C)
    (hres : compare_with_previous load st cur = .ok (delta, st')) :
    st'.latest = st.latest ∧ st'.history = st.history ∧
      (st'.prevFiles = st.prevFiles ∨
        ∃ (k : String) (lc : C), st.latest = some lc ∧
          st'.prevFiles = fileUpdate st.prevFiles k lc) := by
  unfold compare_with_previous at hres
  cases hh : st.history with
  | none =>
    simp only [hh] at hres
    obtain ⟨-, hst⟩ := Prod.mk.injEq _ _ _ _ |>.mp (Except.ok.inj hres)
    rw [← hst]
    exact ⟨rfl, hh, Or.inl rfl⟩
  | some hist =>
    simp only [hh] at hres
    by_cases h2 : 2 ≤ hist.length
    · rw [dif_pos h2] at hres
      cases hp : fileLookup st.prevFiles (previousHashOf hist h2) with
      | none =>
        simp only [hp] at hres
        obtain ⟨-, hst⟩ := Prod.mk.injEq _ _ _ _ |>.mp (Except.ok.inj hres)
        rw [← hst]
        exact ⟨rfl, hh, Or.inl rfl⟩
      | some pc =>
        simp only [hp] at hres
        cases hl : st.latest with
        | none =>
          simp only [hl] at hres
          exact Except.noConfusion hres
        | some lc =>
          simp only [hl] at hres
          obtain ⟨-, hst⟩ := Prod.mk.injEq _ _ _ _ |>.mp (Except.ok.inj hres)
          rw [← hst]
          exact ⟨rfl, rfl, Or.inr ⟨previousHashOf hist h2, lc, rfl, rfl⟩⟩
    · rw [dif_neg h2] at hres
      obtain ⟨-, hst⟩ := Prod.mk.injEq _ _ _ _ |>.mp (Except.ok.inj hres)
      rw [← hst]
      exact ⟨rfl, hh, Or.inl rfl⟩

/-- Witness for the amended C9 theorem at the frame-effect scenario. -/
theorem compare_store_effect_w :
    stScn9After.latest = stScn9.latest ∧
      stScn9After.history = stScn9.history ∧
      (stScn9After.prevFiles = stScn9.prevFiles ∨
        ∃ (k : String) (lc : List Row), stScn9.latest = some lc ∧
          stScn9After.prevFiles = fileUpdate stScn9.prevFiles k lc) :=
  compare_store_effect id stScn9 curRows9 [("WitelA", 15)] stScn9After rfl

/-- C2 (counterexample): ranking is not dense -- with Go-Live sums
A = 10, B = 10, C = 5 the RANK column is A = 2, B = 2, C = 4 and Grand
Total cleared: rank 1 is never used (the Grand Total margins row, sum
25, took it before being cleared) and the tie at 2 skips rank 3. -/
theorem witel_rank_not_dense :
    witel_rank dfRank =
        [("A", some 2), ("B", some 2), ("C", some 4), ("Grand Total", none)] ∧
      some 3 ∉ (witel_rank dfRank).map (fun p => p.2) ∧
      some 1 ∉ (witel_rank dfRank).map (fun p => p.2) :=
  ⟨rfl, by decide, by decide⟩

/-- C2 (amended): the RANK column uses the competition ("min") method
computed over every pivot row including the Grand Total margins row --
each region's rank is one plus the number of rows with strictly greater
Go-Live port sum, and Grand Total's own cell is then cleared.  Hence a
region with a Go-Live sum at least as large as another's ranks at least
as well, equal sums share one rank, and the Grand Total row carries no
rank; but ties leave gaps and Grand Total's participation offsets the
numbers, so the ranking is not dense. -/
theorem witel_rank_min_monotone (df : List Row) (w1 w2 : String)
    (r1 r2 : Nat) (h1 : (w1, some r1) ∈ witel_rank df)
    (h2 : (w2, some r2) ∈ witel_rank df) :
    (goliveSumR df w2 ≤ goliveSumR df w1 → r1 ≤ r2) ∧
      (goliveSumR df w1 = goliveSumR df w2 → r1 = r2) ∧
      ("Grand Total", (none : Option Nat)) ∈ witel_rank df := by
  have e1 := witel_rank_mem df w1 r1 h1
  have e2 := witel_rank_mem df w2 r2 h2
  refine ⟨?_, ?_, grand_total_rank_none df⟩
  · intro hle
    rw [e1, e2]
    exact rank_min_desc_mono _ _ _ hle
  · intro heq
    rw [e1, e2, heq]

/-- Witness for the amended C2 theorem: witels D (sum 7, rank 2) and E
(sum 3, rank 3). -/
theorem witel_rank_min_monotone_w :
    (goliveSumR dfRank2 "E" ≤ goliveSumR dfRank2 "D" → 2 ≤ 3) ∧
      (goliveSumR dfRank2 "D" = goliveSumR dfRank2 "E" → 2 = 3) ∧
      ("Grand Total", (none : Option Nat)) ∈ witel_rank dfRank2 :=
  witel_rank_min_monotone dfRank2 "D" "E" 2 3 (by decide) (by decide)

/-- C3: with validated non-negative port counts, every completion
percentage is a finite value between 0 and 100 -- never NaN or an
infinity -- and a region whose total port sum is 0 gets exactly 0 (the
0/0 NaN is replaced by `fillna(0)`). -/
theorem completion_pct_bounded (df : List Row) (w : String)
    (hpos : ∀ r ∈ df, 0 ≤ r.totalPort) :
    (∃ q : ℚ, completion_pct df w = .val q ∧ 0 ≤ q ∧ q ≤ 100) ∧
      (totalPortSumR df w = 0 → completion_pct df w = .val 0) := by
  have hg0 : 0 ≤ goliveSumR df w := sum_map_filter_nonneg df _ hpos
  have hgt : goliveSumR df w ≤ totalPortSumR df w := by
    unfold goliveSumR totalPortSumR
    exact sum_map_filter_mono df _ _
      (fun r hr => (Bool.and_eq_true _ _ |>.mp hr).2) hpos
  by_cases ht : totalPortSumR df w = 0
  · have hgz : goliveSumR df w = 0 := le_antisymm (ht ▸ hgt) hg0
    have hval : completion_pct df w = .val 0 := by
      unfold completion_pct
      rw [hgz, ht]
      simp [pdiv, pfillna0, pmul100]
    exact ⟨⟨0, hval, le_refl 0, by norm_num⟩, fun _ => hval⟩
  · have htq : ((totalPortSumR df w : Int) : ℚ) ≠ 0 := Int.cast_ne_zero.mpr ht
    have htpos : (0 : ℚ) < ((totalPortSumR df w : Int) : ℚ) := by
      have h0 : (0 : Int) < totalPortSumR df w :=
        lt_of_le_of_ne (le_trans hg0 hgt) (Ne.symm ht)
      exact_mod_cast h0
    have hval : completion_pct df w =
        .val (((goliveSumR df w : Int) : ℚ) /
          ((totalPortSumR df w : Int) : ℚ) * 100) := by
      unfold completion_pct pdiv
      rw [if_neg htq]
      rfl
    refine ⟨⟨_, hval, ?_, ?_⟩, fun hc => absurd hc ht⟩
    · have hgq : (0 : ℚ) ≤ ((goliveSumR df w : Int) : ℚ) := by exact_mod_cast hg0
      exact mul_nonneg (div_nonneg hgq (le_of_lt htpos)) (by norm_num)
    · have hdle : ((goliveSumR df w : Int) : ℚ) /
          ((totalPortSumR df w : Int) : ℚ) ≤ 1 :=
        (div_le_one htpos).mpr (by exact_mod_cast hgt)
      calc ((goliveSumR df w : Int) : ℚ) /
            ((totalPortSumR df w : Int) : ℚ) * 100 ≤ 1 * 100 :=
          mul_le_mul_of_nonneg_right hdle (by norm_num)
        _ = 100 := by norm_num

/-- Witness for C3 at witel W1 of `dfPct` (30 Go-Live of 100 ports). -/
theorem completion_pct_bounded_w :
    (∃ q : ℚ, completion_pct dfPct "W1" = .val q ∧ 0 ≤ q ∧ q ≤ 100) ∧
      (totalPortSumR dfPct "W1" = 0 → completion_pct dfPct "W1" = .val 0) :=
  completion_pct_bounded dfPct "W1" (by decide)

theorem get_last_upload_info_record {C : Type} (md5 : C → String)
    (now : String) (st : StoreState C) :
    get_last_upload_info (record_upload_history md5 now st) =
      (some now, some (match st.latest with | some c => md5 c | none => "")) := by
  have hh : (record_upload_history md5 now st).history =
      some (st.history.getD [] ++
        [(now, match st.latest with | some c => md5 c | none => "")]) := rfl
  unfold get_last_upload_info
  simp only [hh, List.getLast?_concat]

/-- C4: duplicate uploads are no-ops -- when the hash of the uploaded
content equals the (truthy) last recorded hash, the upload view leaves
the store unchanged; consequently uploading byte-identical content twice
in a row leaves exactly the state the first upload produced. -/
theorem upload_view_duplicate {C : Type} (md5 : C → String)
    (loadCells : C → DataFrame) (now1 now2 : String) (st : StoreState C)
    (uploaded : C) (hne : md5 uploaded ≠ "") :
    upload_view md5 loadCells now2
        (upload_view md5 loadCells now1 st uploaded) uploaded =
      upload_view md5 loadCells now1 st uploaded ∧
    ((get_last_upload_info st).2 = some (md5 uploaded) →
      upload_view md5 loadCells now1 st uploaded = st) := by
  have hbne : (md5 uploaded != "") = true := bne_iff_ne.mpr hne
  have noop : ∀ (now : String) (s : StoreState C),
      (get_last_upload_info s).2 = some (md5 uploaded) →
      upload_view md5 loadCells now s uploaded = s := by
    intro now s hlast
    unfold upload_view
    simp only [hlast]
    simp [hbne]
  refine ⟨?_, noop now1 st⟩
  cases hA : (get_last_upload_info st).2 with
  | some h =>
    by_cases hcond : (h != "" && md5 uploaded == h) = true
    · have h1 : upload_view md5 loadCells now1 st uploaded = st := by
        unfold upload_view
        simp only [hA]
        simp [hcond]
      rw [h1]
      unfold upload_view
      simp only [hA]
      simp [hcond]
    · have h1 : upload_view md5 loadCells now1 st uploaded =
          upload_proceed md5 loadCells now1 st uploaded := by
        unfold upload_view
        simp only [hA]
        simp [hcond]
      rw [h1]
      cases hV : validate_data (loadCells uploaded) with
      | error e =>
        have hp : upload_proceed md5 loadCells now1 st uploaded = st := by
          unfold upload_proceed
          simp only [hV]
        rw [hp]
        unfold upload_view
        simp only [hA]
        simp only [Bool.not_eq_true] at hcond
        simp [hcond]
        unfold upload_proceed
        simp only [hV]
      | ok triple =>
        obtain ⟨dfr, is_valid, errs⟩ := triple
        by_cases hv : is_valid = true
        · have hp : upload_proceed md5 loadCells now1 st uploaded =
              record_upload_history md5 now1 { st with latest := some uploaded } := by
            unfold upload_proceed
            simp only [hV]
            simp [hv]
          rw [hp]
          apply noop
          rw [get_last_upload_info_record]
        · have hp : upload_proceed md5 loadCells now1 st uploaded = st := by
            unfold upload_proceed
            simp only [hV]
            simp [hv]
          rw [hp]
          unfold upload_view
          simp only [hA]
          simp only [Bool.not_eq_true] at hcond
          simp [hcond]
          unfold upload_proceed
          simp only [hV]
          simp [hv]
  | none =>
    have h1 : upload_view md5 loadCells now1 st uploaded =
        upload_proceed md5 loadCells now1 st uploaded := by
      unfold upload_view
      simp only [hA]
    rw [h1]
    cases hV : validate_data (loadCells uploaded) with
    | error e =>
      have hp : upload_proceed md5 loadCells now1 st uploaded = st := by
        unfold upload_proceed
        simp only [hV]
      rw [hp]
      unfold upload_view
      simp only [hA]
      unfold upload_proceed
      simp only [hV]
    | ok triple =>
      obtain ⟨dfr, is_valid, errs⟩ := triple
      by_cases hv : is_valid = true
      · have hp : upload_proceed md5 loadCells now1 st uploaded =
            record_upload_history md5 now1 { st with latest := some uploaded } := by
          unfold upload_proceed
          simp only [hV]
          simp [hv]
        rw [hp]
        apply noop
        rw [get_last_upload_info_record]
      · have hp : upload_proceed md5 loadCells now1 st uploaded = st := by
          unfold upload_proceed
          simp only [hV]
          simp [hv]
        rw [hp]
        unfold upload_view
        simp only [hA]
        unfold upload_proceed
        simp only [hV]
        simp [hv]

/-- Witness for C4: re-uploading the content whose hash is the last
recorded one leaves the concrete store unchanged, and a second upload is
a no-op on the first upload's result. -/
theorem upload_view_duplicate_w :
    upload_view md5c (fun _ => dfNoName) "n2"
        (upload_view md5c (fun _ => dfNoName) "n1" stScn4 curRows) curRows =
      upload_view md5c (fun _ => dfNoName) "n1" stScn4 curRows ∧
    ((get_last_upload_info stScn4).2 = some (md5c curRows) →
      upload_view md5c (fun _ => dfNoName) "n1" stScn4 curRows = stScn4) :=
  upload_view_duplicate md5c (fun _ => dfNoName) "n1" "n2" stScn4 curRows
    (by decide)

end Racing
